import Mathlib

/-!
# Verification of the PayloadPack payload decoder

A shallow embedding of `src/app/src/main/rust/src/payload.rs` and the JNI
boundary of `src/app/src/main/rust/src/lib.rs`.

Modelling conventions:
* Byte sequences are `List Nat` (each entry is a byte value).  Machine `u64`
  arithmetic that can wrap is made explicit with `% 2 ^ 64`.
* The payload file is given by its byte contents directly; operating-system
  path resolution (`Path::exists`, `File::open`) is abstracted away, so the
  `FileNotFound`/`PermissionDenied` branches of the source are unreachable in
  the model.  The sibling `payload_properties.txt` lookup is modelled as the
  file being absent (`properties = none`).
* The generated protobuf decoder (`DeltaArchiveManifest::decode`, produced by
  `prost` from `update_metadata.proto`; the generated module is not part of
  the sources) is a parameter `dec` of the model: every universally
  quantified theorem holds for an arbitrary decoder.  Concrete theorems
  instantiate `dec` with explicit table decoders; any `DeltaArchiveManifest`
  value is the decoding of some byte string under the real schema.
* The external `xz2` and `bzip2` decompressors are likewise parameters.
* The run of `extract_payload` returns, besides the `Result`, the list of
  progress-callback invocations and the list of fully written output files
  (path and bytes), which are the externally observable effects.
-/

/-- Wrap a value into the `u64` range, as Rust release-mode arithmetic does. -/
def u64 (n : Nat) : Nat := n % 2 ^ 64

/-- Big-endian interpretation of a byte list (`u64::from_be_bytes` /
`u32::from_be_bytes` applied to the exact-length slices read by the source). -/
def beBytes (bs : List Nat) : Nat := bs.foldl (fun acc b => acc * 256 + b) 0

/-- Magic bytes `"CrAU"` (`PAYLOAD_MAGIC` in payload.rs). -/
def payloadMagic : List Nat := [0x43, 0x72, 0x41, 0x55]

/-- `HEADER_SIZE` in payload.rs. -/
def HEADER_SIZE : Nat := 24

/-- `MAX_MANIFEST_SIZE` in payload.rs (100 MiB). -/
def MAX_MANIFEST_SIZE : Nat := 100 * 1024 * 1024

/-! ## `format_size`

The source formats with `f64` arithmetic:
`format!("{:.2}", bytes as f64 / div as f64)`.  The model reproduces this
exactly with integer arithmetic: `bytes as f64` rounds the integer to 53
significant bits (ties to even); the division by a power of two is exact in
binary floating point; `{:.2}` correctly rounds the binary value to two
decimal digits (ties to even).  -/

/-- Round `num / den` to the nearest integer, ties to even (`den > 0`). -/
def roundHalfEven (num den : Nat) : Nat :=
  let q := num / den
  let r := num % den
  if 2 * r < den then q
  else if den < 2 * r then q + 1
  else if q % 2 = 0 then q else q + 1

/-- The exact value of `n as f64` for `n : u64`: round to 53 significant
bits, ties to even.  The result is again a natural number because every
`u64` rounds to an integral double. -/
def f64ofU64 (n : Nat) : Nat :=
  if n < 2 ^ 53 then n
  else
    let ulp := 2 ^ (Nat.log2 n - 52)
    ulp * roundHalfEven n ulp

/-- Two-digit zero-padded fraction part. -/
def twoFrac (n : Nat) : String :=
  if n < 10 then "0" ++ toString n else toString n

/-- Hundredths of `(n as f64) / 2 ^ shift`, correctly rounded (ties to even),
i.e. the quantity printed by `format!("{:.2}", ...)`. -/
def scaled2 (n shift : Nat) : Nat :=
  roundHalfEven (f64ofU64 n * 100) (2 ^ shift)

/-- Decimal rendering `"d.dd"` of `(n as f64) / 2 ^ shift` with two decimal
digits. -/
def renderScaled (n shift : Nat) : String :=
  toString (scaled2 n shift / 100) ++ "." ++ twoFrac (scaled2 n shift % 100)

/-- `format_size` from payload.rs. -/
def format_size (bytes : Nat) : String :=
  if bytes ≥ 1024 * 1024 * 1024 then renderScaled bytes 30 ++ " GB"
  else if bytes ≥ 1024 * 1024 then renderScaled bytes 20 ++ " MB"
  else if bytes ≥ 1024 then renderScaled bytes 10 ++ " KB"
  else toString bytes ++ " B"

/-! ## UTF-8 lossy decoding (for `String::from_utf8_lossy` on the magic) -/

/-- U+FFFD replacement character. -/
def replacementChar : Char := Char.ofNat 0xFFFD

/-- One step of UTF-8 decoding following the maximal-subpart policy of
`String::from_utf8_lossy`: returns the decoded character (or U+FFFD) and the
remaining bytes. -/
def utf8Step (b : Nat) (rest : List Nat) : Char × List Nat :=
  if b < 0x80 then (Char.ofNat b, rest)
  else if b < 0xC2 then (replacementChar, rest)
  else if b ≤ 0xDF then
    match rest with
    | c1 :: r1 =>
      if 0x80 ≤ c1 ∧ c1 ≤ 0xBF then (Char.ofNat ((b - 0xC0) * 64 + (c1 - 0x80)), r1)
      else (replacementChar, rest)
    | [] => (replacementChar, [])
  else if b ≤ 0xEF then
    let lo1 := if b = 0xE0 then 0xA0 else 0x80
    let hi1 := if b = 0xED then 0x9F else 0xBF
    match rest with
    | c1 :: r1 =>
      if lo1 ≤ c1 ∧ c1 ≤ hi1 then
        match r1 with
        | c2 :: r2 =>
          if 0x80 ≤ c2 ∧ c2 ≤ 0xBF then
            (Char.ofNat ((b - 0xE0) * 4096 + (c1 - 0x80) * 64 + (c2 - 0x80)), r2)
          else (replacementChar, r1)
        | [] => (replacementChar, [])
      else (replacementChar, rest)
    | [] => (replacementChar, [])
  else if b ≤ 0xF4 then
    let lo1 := if b = 0xF0 then 0x90 else 0x80
    let hi1 := if b = 0xF4 then 0x8F else 0xBF
    match rest with
    | c1 :: r1 =>
      if lo1 ≤ c1 ∧ c1 ≤ hi1 then
        match r1 with
        | c2 :: r2 =>
          if 0x80 ≤ c2 ∧ c2 ≤ 0xBF then
            match r2 with
            | c3 :: r3 =>
              if 0x80 ≤ c3 ∧ c3 ≤ 0xBF then
                (Char.ofNat ((b - 0xF0) * 262144 + (c1 - 0x80) * 4096 +
                  (c2 - 0x80) * 64 + (c3 - 0x80)), r3)
              else (replacementChar, r2)
            | [] => (replacementChar, [])
          else (replacementChar, r1)
        | [] => (replacementChar, [])
      else (replacementChar, rest)
    | [] => (replacementChar, [])
  else (replacementChar, rest)

/-- Fueled UTF-8 lossy decoding loop. -/
def utf8LossyAux : Nat → List Nat → List Char
  | 0, _ => []
  | _, [] => []
  | fuel + 1, b :: rest =>
    let st := utf8Step b rest
    st.1 :: utf8LossyAux fuel st.2

/-- `String::from_utf8_lossy` on a byte list. -/
def utf8Lossy (bs : List Nat) : String := String.mk (utf8LossyAux bs.length bs)

/-- Uppercase hex digit. -/
def hexDigitU (n : Nat) : Char :=
  if n < 10 then Char.ofNat (48 + n) else Char.ofNat (55 + n)

/-- Eight-digit uppercase hex rendering (`{:08X}` on a `u32`). -/
def hex8 (n : Nat) : String :=
  String.mk ((List.range 8).map fun i => hexDigitU (n / 16 ^ (7 - i) % 16))

/-! ## Error model (`PayloadError` in payload.rs) -/

/-- The error taxonomy of payload.rs.  The constructor list is exactly the
source enum; note that the source has no `CodecFailure` and no
`InvalidInput` constructor. -/
inductive PayloadError where
  | FileNotFound (detail : String)
  | PermissionDenied (detail : String)
  | Io (detail : String)
  | InvalidMagic (observed : String) (observedU32 : Nat)
  | UnsupportedVersion (version : Nat)
  | ProtobufDecode (detail : String)
  | ManifestTooLarge (size : Nat)
  | FileTooSmall (size min : Nat)
  | EmptyPath
  | UnexpectedEof (what : String)
  deriving DecidableEq

/-- The `Display` string of each error, following the `thiserror` templates
of the source. -/
def PayloadError.message : PayloadError → String
  | .FileNotFound s => "File not found: " ++ s
  | .PermissionDenied s => "Permission denied: " ++ s
  | .Io s => "IO error reading file: " ++ s
  | .InvalidMagic s u =>
      "Invalid magic bytes: expected 'CrAU' (0x43724155), got '" ++ s ++
        "' (0x" ++ hex8 u ++ ")"
  | .UnsupportedVersion v =>
      "Unsupported payload version: " ++ toString v ++ ". Only Version 2 is supported."
  | .ProtobufDecode s => "Protobuf decode error: " ++ s
  | .ManifestTooLarge n =>
      "Manifest too large: " ++ toString n ++ " bytes (max 100MB). File may be corrupted."
  | .FileTooSmall n m =>
      "File too small (" ++ toString n ++ " bytes) to be a valid payload. Minimum size is " ++
        toString m ++ " bytes."
  | .EmptyPath => "Path is empty"
  | .UnexpectedEof s => "Unexpected end of file while reading " ++ s

/-- The enum-variant name of an error (the "kind" of the error taxonomy). -/
def PayloadError.kindName : PayloadError → String
  | .FileNotFound _ => "FileNotFound"
  | .PermissionDenied _ => "PermissionDenied"
  | .Io _ => "Io"
  | .InvalidMagic _ _ => "InvalidMagic"
  | .UnsupportedVersion _ => "UnsupportedVersion"
  | .ProtobufDecode _ => "ProtobufDecode"
  | .ManifestTooLarge _ => "ManifestTooLarge"
  | .FileTooSmall _ _ => "FileTooSmall"
  | .EmptyPath => "EmptyPath"
  | .UnexpectedEof _ => "UnexpectedEof"

/-! ## Manifest data model

Modelled from the spec: the generated protobuf module
(`proto::DeltaArchiveManifest` etc., produced from `update_metadata.proto`)
is not among the sources; the structures below carry exactly the fields the
spec lists as consumed (§6): `block_size`, `partial_update`,
`security_patch_level`, `partitions[]` with `partition_name`,
`new_partition_info.size`, `operations[]`, per-operation `type`,
`data_offset`, `data_length`.  -/

/-- Install-operation types (`InstallOperation::Type`).  `Replace`,
`ReplaceBz` and `ReplaceXz` are the full-image operations; the remaining
constructors are the delta/zero operations named by the spec's non-goals. -/
inductive OpType where
  | Replace | ReplaceBz | ReplaceXz
  | Move | Bsdiff | SourceCopy | SourceBsdiff | Zero | Discard
  | Puffdiff | BrotliBsdiff
  deriving DecidableEq

/-- `InstallOperation` (consumed fields). -/
structure InstallOperation where
  type : OpType
  data_offset : Option Nat
  data_length : Option Nat
  deriving DecidableEq

/-- The protobuf `PartitionInfo` message carried in `new_partition_info`
(consumed field: optional `size`).  Named `ProtoPartitionInfo` because the
summary struct of payload.rs is also called `PartitionInfo`. -/
structure ProtoPartitionInfo where
  size : Option Nat
  deriving DecidableEq

/-- `PartitionUpdate` (consumed fields). -/
structure PartitionUpdate where
  partition_name : String
  new_partition_info : Option ProtoPartitionInfo
  operations : List InstallOperation
  deriving DecidableEq

/-- `DeltaArchiveManifest` (consumed fields). -/
structure DeltaArchiveManifest where
  block_size : Option Nat
  partial_update : Option Bool
  security_patch_level : Option String
  partitions : List PartitionUpdate
  deriving DecidableEq

/-- A protobuf decoder for `DeltaArchiveManifest`; the generated
`prost`-based decoder is abstracted as a function from the manifest bytes to
either an error detail or a message value. -/
abbrev ManifestDecoder := List Nat → Except String DeltaArchiveManifest

/-! ## Inspection result model (payload.rs structs) -/

/-- `PayloadHeader`. -/
structure PayloadHeader where
  version : Nat
  manifest_size : Nat
  metadata_signature_size : Nat
  deriving DecidableEq

/-- `PartitionInfo` (the per-partition summary of payload.rs). -/
structure PartitionInfo where
  name : String
  size : Nat
  operations_count : Nat
  size_human : String
  deriving DecidableEq

/-- `PayloadProperties` (from `payload_properties.txt`). -/
structure PayloadProperties where
  file_hash : Option String
  file_size : Option Nat
  metadata_hash : Option String
  metadata_size : Option Nat
  deriving DecidableEq

/-- `PayloadInspection`. -/
structure PayloadInspection where
  header : PayloadHeader
  block_size : Nat
  partial_update : Bool
  security_patch_level : Option String
  partitions : List PartitionInfo
  total_size : Nat
  total_size_human : String
  file_path : String
  properties : Option PayloadProperties
  deriving DecidableEq

/-- The size used for a partition: `new_partition_info.size` or 0 when the
message or the field is absent. -/
def partitionSize (p : PartitionUpdate) : Nat :=
  (p.new_partition_info.bind (·.size)).getD 0

/-- The summary entry built for one partition in STEP 7 of
`inspect_payload`. -/
def summaryOf (p : PartitionUpdate) : PartitionInfo :=
  { name := p.partition_name
    size := partitionSize p
    operations_count := p.operations.length
    size_human := format_size (partitionSize p) }

/-- `total_size += size` accumulation of STEP 7, with `u64` wrapping. -/
def totalOf (ps : List PartitionUpdate) : Nat :=
  ps.foldl (fun acc p => u64 (acc + partitionSize p)) 0

/-- Lexicographic comparison of character lists by code point.  Rust's
`String::cmp` compares the UTF-8 bytes, which for valid UTF-8 coincides
with lexicographic code-point order. -/
def charListLe : List Char → List Char → Bool
  | [], _ => true
  | _ :: _, [] => false
  | a :: as2, b :: bs2 =>
    decide (a.toNat < b.toNat) || (decide (a.toNat = b.toNat) && charListLe as2 bs2)

/-- `a.cmp(&b) != Greater` on strings. -/
def strLe (a b : String) : Bool := charListLe a.data b.data

/-- Name comparison used by `partitions.sort_by(|a, b| a.name.cmp(&b.name))`. -/
def nameLe (a b : PartitionInfo) : Prop := strLe a.name b.name = true

instance : DecidableRel nameLe := fun a b =>
  inferInstanceAs (Decidable (strLe a.name b.name = true))

instance : IsTotal PartitionInfo nameLe := ⟨fun a b => by
  unfold nameLe strLe
  generalize a.name.data = l1
  generalize b.name.data = l2
  induction l1 generalizing l2 with
  | nil => left; simp [charListLe]
  | cons c cs ih =>
    cases l2 with
    | nil => right; simp [charListLe]
    | cons d ds =>
      simp only [charListLe, Bool.or_eq_true, Bool.and_eq_true, decide_eq_true_eq]
      rcases Nat.lt_trichotomy c.toNat d.toNat with h | h | h
      · exact Or.inl (Or.inl h)
      · rcases ih ds with h2 | h2
        · exact Or.inl (Or.inr ⟨h, h2⟩)
        · exact Or.inr (Or.inr ⟨h.symm, h2⟩)
      · exact Or.inr (Or.inl h)⟩

instance : IsTrans PartitionInfo nameLe := ⟨fun a b c => by
  unfold nameLe strLe
  generalize a.name.data = l1
  generalize b.name.data = l2
  generalize c.name.data = l3
  induction l1 generalizing l2 l3 with
  | nil => intro _ _; simp [charListLe]
  | cons x xs ih =>
    cases l2 with
    | nil => intro h; simp [charListLe] at h
    | cons y ys =>
      cases l3 with
      | nil => intro _ h; simp [charListLe] at h
      | cons z zs =>
        intro h12 h23
        simp only [charListLe, Bool.or_eq_true, Bool.and_eq_true,
          decide_eq_true_eq] at h12 h23 ⊢
        rcases h12 with h12 | ⟨he12, hr12⟩
        · rcases h23 with h23 | ⟨he23, hr23⟩
          · exact Or.inl (by omega)
          · exact Or.inl (by omega)
        · rcases h23 with h23 | ⟨he23, hr23⟩
          · exact Or.inl (by omega)
          · exact Or.inr ⟨by omega, ih ys zs hr12 hr23⟩⟩

/-- The stable ascending sort by name applied to the summaries. -/
def sortByName (l : List PartitionInfo) : List PartitionInfo :=
  List.insertionSort nameLe l

/-- STEP 7/8 result assembly of `inspect_payload`. -/
def buildInspection (path : String) (version msize sig : Nat)
    (m : DeltaArchiveManifest) : PayloadInspection :=
  { header := { version := version, manifest_size := msize, metadata_signature_size := sig }
    block_size := m.block_size.getD 4096
    partial_update := m.partial_update.getD false
    security_patch_level := m.security_patch_level
    partitions := sortByName (m.partitions.map summaryOf)
    total_size := totalOf m.partitions
    total_size_human := format_size (totalOf m.partitions)
    file_path := path
    properties := none }

/-- `inspect_payload` from payload.rs, over the file's bytes.  All header
reads are `read_exact` on a file already known to hold at least 24 bytes;
the manifest `read_exact` fails with `UnexpectedEof` exactly when fewer than
`manifest_size` bytes follow the header (the `From<std::io::Error>`
conversion maps every `UnexpectedEof` to the string `"header or
manifest"`). -/
def inspect_payload (dec : ManifestDecoder) (path : String) (file : List Nat) :
    Except PayloadError PayloadInspection :=
  if path = "" then .error .EmptyPath
  else if file.length < HEADER_SIZE then
    .error (.FileTooSmall file.length HEADER_SIZE)
  else
    let magic := file.take 4
    if magic ≠ payloadMagic then
      .error (.InvalidMagic (utf8Lossy magic) (beBytes magic))
    else
      let version := beBytes ((file.drop 4).take 8)
      if version ≠ 2 then .error (.UnsupportedVersion version)
      else
        let msize := beBytes ((file.drop 12).take 8)
        if msize > MAX_MANIFEST_SIZE then .error (.ManifestTooLarge msize)
        else
          let sig := beBytes ((file.drop 20).take 4)
          if HEADER_SIZE + msize > file.length then
            .error (.UnexpectedEof "header or manifest")
          else
            match dec ((file.drop 24).take msize) with
            | .error e => .error (.ProtobufDecode e)
            | .ok m => .ok (buildInspection path version msize sig m)

/-! ## Codec layer (`decompress_xz` / `decompress_bz2`)

The streaming decompressors of the external `xz2` and `bzip2` crates are
parameters: a codec maps the compressed bytes either to the decoded bytes or
to the display string of the `std::io::Error` it raises.  The source wraps
any such error into `PayloadError::Io` with a fixed prefix. -/

/-- A raw decompressor (external crate behaviour). -/
abbrev Codec := List Nat → Except String (List Nat)

/-- `decompress_xz` from payload.rs. -/
def decompress_xz (xz : Codec) (data : List Nat) : Except PayloadError (List Nat) :=
  match xz data with
  | .ok out => .ok out
  | .error e => .error (.Io ("XZ decompression failed: " ++ e))

/-- `decompress_bz2` from payload.rs. -/
def decompress_bz2 (bz2 : Codec) (data : List Nat) : Except PayloadError (List Nat) :=
  match bz2 data with
  | .ok out => .ok out
  | .error e => .error (.Io ("Bzip2 decompression failed: " ++ e))

/-! ## Extraction engine (`extract_payload`) -/

/-- The environment of external collaborators of one extraction run: the
protobuf decoder, the two codecs, and `std::fs::metadata(..).map(|m|
m.len())` as a partial function from paths to lengths (`none` models a
failing stat call). -/
structure ExtractEnv where
  dec : ManifestDecoder
  xz : Codec
  bz2 : Codec
  stat : String → Option Nat

/-- `Path::join` on string paths: joining an absolute component replaces the
base path. -/
def pathJoin (base comp : String) : String :=
  if comp.data.head? = some (Char.ofNat 47) then comp else base ++ "/" ++ comp

/-- One progress-callback invocation
`callback(partition_name, percent, bytes_processed, total_bytes)`. -/
structure ProgressEvent where
  name : String
  percent : Nat
  processed : Nat
  total : Nat
  deriving DecidableEq

/-- `ExtractedPartition` from payload.rs. -/
structure ExtractedPartition where
  name : String
  size : Nat
  path : String
  deriving DecidableEq

/-- `ExtractionResult` from payload.rs. -/
structure ExtractionResult where
  status : String
  extracted : List ExtractedPartition
  deriving DecidableEq

/-- Percent reported at the start of a partition: the source computes
`((bytes_processed as f64 / total_bytes as f64) * 100.0) as i32` when
`total_bytes > 0` and `0` otherwise.  The model uses the exact floor
`processed * 100 / total`; the `f64` round-off can differ from the exact
floor only for totals in the vicinity of `2 ^ 53` and beyond, and every
value appearing in the theorems below (in particular `processed = total`,
where the quotient is exactly `1.0`) is computed exactly by the `f64`
expression. -/
def startPercent (processed total : Nat) : Nat :=
  if total = 0 then 0 else processed * 100 / total

/-- Percent reported after a partition completes; as `startPercent` but the
`total_bytes = 0` branch reports 100. -/
def endPercent (processed total : Nat) : Nat :=
  if total = 0 then 100 else processed * 100 / total

/-- The byte offset of one operation's data segment:
`data_offset + operation.data_offset.unwrap_or(0)` in `u64` arithmetic. -/
def segmentStart (dataOff : Nat) (op : InstallOperation) : Nat :=
  u64 (dataOff + op.data_offset.getD 0)

/-- `read_exact` of `len` bytes at absolute position `pos` of the payload
file (after the corresponding `seek`): seeking beyond the end succeeds, the
subsequent exact read fails with `UnexpectedEof`, which the `From`
conversion renders as `"header or manifest"`. -/
def readExactAt (file : List Nat) (pos len : Nat) : Except PayloadError (List Nat) :=
  if pos + len ≤ file.length then .ok ((file.drop pos).take len)
  else .error (.UnexpectedEof "header or manifest")

/-- Processing of a single install operation inside the per-partition loop:
skip when there is no data segment, otherwise read the segment and append
the raw (`Replace` and every non-full-image type) or decoded (`ReplaceBz`,
`ReplaceXz`) bytes to the partition's output buffer.  Buffered writes are
modelled as always succeeding. -/
def applyOp (env : ExtractEnv) (file : List Nat) (dataOff : Nat)
    (buf : List Nat) (op : InstallOperation) : Except PayloadError (List Nat) :=
  match op.data_length with
  | none => .ok buf
  | some dl =>
    if dl = 0 then .ok buf
    else
      match readExactAt file (segmentStart dataOff op) dl with
      | .error e => .error e
      | .ok seg =>
        match op.type with
        | .ReplaceXz =>
          match decompress_xz env.xz seg with
          | .error e => .error e
          | .ok d => .ok (buf ++ d)
        | .ReplaceBz =>
          match decompress_bz2 env.bz2 seg with
          | .error e => .error e
          | .ok d => .ok (buf ++ d)
        | .Replace => .ok (buf ++ seg)
        | _ => .ok (buf ++ seg)

/-- The operation loop of one partition, starting from an (empty) output
buffer. -/
def applyOps (env : ExtractEnv) (file : List Nat) (dataOff : Nat) :
    List InstallOperation → List Nat → Except PayloadError (List Nat)
  | [], buf => .ok buf
  | op :: ops, buf =>
    match applyOp env file dataOff buf op with
    | .error e => .error e
    | .ok buf1 => applyOps env file dataOff ops buf1

/-- `total_bytes`: the `u64` sum of the present `new_partition_info.size`
values. -/
def totalBytes (ps : List PartitionUpdate) : Nat :=
  u64 ((ps.filterMap (fun p => p.new_partition_info.bind (·.size))).sum)

/-- The per-partition loop of `extract_payload`.  Returns the delivered
progress events, the fully written output files as `(path, bytes)` pairs,
and the result of the loop.  On a failure the events already delivered and
the files already completed are kept; the failing partition's output file
(created but not flushed) is not tracked. -/
def extractLoop (env : ExtractEnv) (file : List Nat) (dataOff total : Nat)
    (out : String) (cb : Bool) :
    List PartitionUpdate → Nat →
      List ProgressEvent × List (String × List Nat) × Except PayloadError (List ExtractedPartition)
  | [], _ => ([], [], .ok [])
  | p :: ps, processed =>
    let name := p.partition_name
    let ev1 : List ProgressEvent :=
      if cb then [⟨name, startPercent processed total, processed, total⟩] else []
    let path := pathJoin out (name ++ ".img")
    match applyOps env file dataOff p.operations [] with
    | .error e => (ev1, [], .error e)
    | .ok buf =>
      let finalSize := (env.stat path).getD 0
      let processed1 := u64 (processed + partitionSize p)
      let ev2 : List ProgressEvent :=
        if cb then [⟨name, endPercent processed1 total, processed1, total⟩] else []
      let rest := extractLoop env file dataOff total out cb ps processed1
      (ev1 ++ ev2 ++ rest.1, (path, buf) :: rest.2.1,
        match rest.2.2 with
        | .error e => .error e
        | .ok l => .ok (⟨name, finalSize, path⟩ :: l))

/-- `extract_payload` from payload.rs: inspect first, compute the data-blob
offset, re-read and re-decode the manifest, then run the partition loop.
Creation of the output directory is modelled as succeeding.  The result
triple carries the progress events, the written files, and the
`Result`. -/
def extract_payload (env : ExtractEnv) (payload_path output_dir : String)
    (file : List Nat) (cb : Bool) :
    List ProgressEvent × List (String × List Nat) × Except PayloadError ExtractionResult :=
  match inspect_payload env.dec payload_path file with
  | .error e => ([], [], .error e)
  | .ok insp =>
    let dataOff := u64 (HEADER_SIZE + insp.header.manifest_size +
      insp.header.metadata_signature_size)
    match env.dec ((file.drop 24).take insp.header.manifest_size) with
    | .error e => ([], [], .error (.ProtobufDecode e))
    | .ok m =>
      let total := totalBytes m.partitions
      let run := extractLoop env file dataOff total output_dir cb m.partitions 0
      (run.1, run.2.1,
        match run.2.2 with
        | .error e => .error e
        | .ok l => .ok ⟨"success", l⟩)

/-- The progress events delivered by a run. -/
def extractEvents (env : ExtractEnv) (pp out : String) (file : List Nat) (cb : Bool) :
    List ProgressEvent :=
  (extract_payload env pp out file cb).1

/-- The output files fully written by a run. -/
def extractFiles (env : ExtractEnv) (pp out : String) (file : List Nat) (cb : Bool) :
    List (String × List Nat) :=
  (extract_payload env pp out file cb).2.1

/-- The `Result` of a run. -/
def extractResult (env : ExtractEnv) (pp out : String) (file : List Nat) (cb : Bool) :
    Except PayloadError ExtractionResult :=
  (extract_payload env pp out file cb).2.2

/-- The partition list a run operates on (the prelude of `extract_payload`
up to the manifest re-decode); `none` when inspection or decoding fails. -/
def partitionsOfRun (env : ExtractEnv) (pp : String) (file : List Nat) :
    Option (List PartitionUpdate) :=
  match inspect_payload env.dec pp file with
  | .error _ => none
  | .ok insp =>
    match env.dec ((file.drop 24).take insp.header.manifest_size) with
    | .error _ => none
    | .ok m => some m.partitions

/-! ## JSON serialization (`serde_json`) and the JNI boundary

The boundary adapters of lib.rs return, for every call, either the
`serde_json` serialization of the successful result or an error object built
by string interpolation after replacing every double quote of the message by
a single quote.  The serializer is modelled by a JSON syntax tree and a
renderer; `serde_json::to_string_pretty`'s insignificant whitespace is not
reproduced (the model renders the compact form). -/

/-- A JSON value. -/
inductive Json where
  | null
  | bool (b : Bool)
  | num (n : Nat)
  | str (s : String)
  | arr (elems : List Json)
  | obj (members : List (String × Json))

/-- Quote character as a string. -/
def qs : String := String.singleton (Char.ofNat 34)

/-- Backslash character as a string. -/
def bs : String := String.singleton (Char.ofNat 92)

/-- Lowercase hex digit. -/
def hexDigitL (n : Nat) : Char :=
  if n < 10 then Char.ofNat (48 + n) else Char.ofNat (87 + n)

/-- JSON string escaping of one character, as `serde_json` performs it. -/
def jsonEscapeChar (c : Char) : String :=
  if c.toNat = 34 then bs ++ qs
  else if c.toNat = 92 then bs ++ bs
  else if c.toNat = 8 then bs ++ "b"
  else if c.toNat = 9 then bs ++ "t"
  else if c.toNat = 10 then bs ++ "n"
  else if c.toNat = 12 then bs ++ "f"
  else if c.toNat = 13 then bs ++ "r"
  else if c.toNat < 32 then
    bs ++ "u00" ++ String.mk [hexDigitL (c.toNat / 16), hexDigitL (c.toNat % 16)]
  else String.singleton c

/-- A JSON string literal with escapes. -/
def jsonQuote (s : String) : String :=
  qs ++ String.join (s.data.map jsonEscapeChar) ++ qs

mutual

/-- Compact JSON rendering. -/
def Json.render : Json → String
  | .null => "null"
  | .bool true => "true"
  | .bool false => "false"
  | .num n => toString n
  | .str s => jsonQuote s
  | .arr elems => "[" ++ Json.renderElems elems ++ "]"
  | .obj members => "\x7b" ++ Json.renderMembers members ++ "\x7d"

/-- Comma-separated array elements. -/
def Json.renderElems : List Json → String
  | [] => ""
  | [x] => Json.render x
  | x :: y :: rest => Json.render x ++ "," ++ Json.renderElems (y :: rest)

/-- Comma-separated object members. -/
def Json.renderMembers : List (String × Json) → String
  | [] => ""
  | [kv] => jsonQuote kv.1 ++ ":" ++ Json.render kv.2
  | kv :: kv2 :: rest =>
    jsonQuote kv.1 ++ ":" ++ Json.render kv.2 ++ "," ++ Json.renderMembers (kv2 :: rest)

end

/-- Serialization of an `Option` as `serde` does (`null` or the value). -/
def jsonOfOptStr : Option String → Json
  | none => .null
  | some s => .str s

/-- `serde` serialization shape of a `PartitionInfo` summary. -/
def partitionInfoToJson (p : PartitionInfo) : Json :=
  .obj [("name", .str p.name), ("size", .num p.size),
    ("operations_count", .num p.operations_count), ("size_human", .str p.size_human)]

/-- `serde` serialization shape of `PayloadProperties`. -/
def propertiesToJson (p : PayloadProperties) : Json :=
  .obj [("file_hash", jsonOfOptStr p.file_hash),
    ("file_size", match p.file_size with | none => .null | some n => .num n),
    ("metadata_hash", jsonOfOptStr p.metadata_hash),
    ("metadata_size", match p.metadata_size with | none => .null | some n => .num n)]

/-- `serde` serialization shape of a `PayloadInspection` (fields in
declaration order). -/
def inspectionToJson (i : PayloadInspection) : Json :=
  .obj [("header", .obj [("version", .num i.header.version),
      ("manifest_size", .num i.header.manifest_size),
      ("metadata_signature_size", .num i.header.metadata_signature_size)]),
    ("block_size", .num i.block_size),
    ("partial_update", .bool i.partial_update),
    ("security_patch_level", jsonOfOptStr i.security_patch_level),
    ("partitions", .arr (i.partitions.map partitionInfoToJson)),
    ("total_size", .num i.total_size),
    ("total_size_human", .str i.total_size_human),
    ("file_path", .str i.file_path),
    ("properties", match i.properties with | none => .null | some p => propertiesToJson p)]

/-- `serde` serialization shape of an `ExtractionResult`. -/
def extractionResultToJson (r : ExtractionResult) : Json :=
  .obj [("status", .str r.status),
    ("extracted", .arr (r.extracted.map fun e =>
      .obj [("name", .str e.name), ("size", .num e.size), ("path", .str e.path)]))]

/-- `inspect_payload_json` from payload.rs: the JSON text on success, the
error's display string on failure (JSON serialization itself cannot fail on
these values). -/
def inspect_payload_json (dec : ManifestDecoder) (path : String) (file : List Nat) :
    Except String String :=
  match inspect_payload dec path file with
  | .ok i => .ok (Json.render (inspectionToJson i))
  | .error e => .error e.message

/-- `extract_payload_json` from payload.rs. -/
def extract_payload_json (env : ExtractEnv) (pp out : String) (file : List Nat) (cb : Bool) :
    Except String String :=
  match extractResult env pp out file cb with
  | .ok r => .ok (Json.render (extractionResultToJson r))
  | .error e => .error e.message

/-- `e.replace('"', "'")` of lib.rs. -/
def escapeQuotes (s : String) : String :=
  String.mk (s.data.map fun c => if c.toNat = 34 then Char.ofNat 39 else c)

/-- Character sequence of the `inspectPayload` error object around an
interpolated message. -/
def inspectErrorChars (cs : List Char) : List Char :=
  Char.ofNat 123 :: Char.ofNat 34 :: 'e' :: 'r' :: 'r' :: 'o' :: 'r' ::
    Char.ofNat 34 :: Char.ofNat 58 :: Char.ofNat 32 :: Char.ofNat 34 ::
    (cs ++ [Char.ofNat 34, Char.ofNat 125])

/-- The error object built by `inspectPayload` in lib.rs by interpolating
the message between `\x7b"error": "` and `"\x7d`. -/
def inspectErrorJson (msg : String) : String :=
  String.mk (inspectErrorChars msg.data)

/-- Character sequence of the `extractPayload` error object around an
interpolated message. -/
def extractErrorChars (cs : List Char) : List Char :=
  Char.ofNat 123 :: Char.ofNat 34 :: 's' :: 't' :: 'a' :: 't' :: 'u' :: 's' ::
    Char.ofNat 34 :: Char.ofNat 58 :: Char.ofNat 34 :: 'e' :: 'r' :: 'r' :: 'o' :: 'r' ::
    Char.ofNat 34 :: Char.ofNat 44 :: Char.ofNat 34 ::
    'm' :: 'e' :: 's' :: 's' :: 'a' :: 'g' :: 'e' ::
    Char.ofNat 34 :: Char.ofNat 58 :: Char.ofNat 34 ::
    (cs ++ [Char.ofNat 34, Char.ofNat 125])

/-- The error object built by `extractPayload` in lib.rs by interpolating
the message between `\x7b"status":"error","message":"` and `"\x7d`. -/
def extractErrorJson (msg : String) : String :=
  String.mk (extractErrorChars msg.data)

/-- The string returned to the host by the `inspectPayload` JNI entry
point. -/
def inspectPayloadBoundary (dec : ManifestDecoder) (path : String) (file : List Nat) :
    String :=
  match inspect_payload_json dec path file with
  | .ok j => j
  | .error e => inspectErrorJson (escapeQuotes e)

/-- The string returned to the host by the `extractPayload` JNI entry
point. -/
def extractPayloadBoundary (env : ExtractEnv) (pp out : String) (file : List Nat)
    (cb : Bool) : String :=
  match extract_payload_json env pp out file cb with
  | .ok j => j
  | .error e => extractErrorJson (escapeQuotes e)

/-! ## A JSON validity checker (RFC 8259 syntax)

Each parsing function consumes a prefix of the character list and returns
the remainder, or `none` when the prefix is not of the expected shape.
Nesting recursion is bounded by explicit fuel; `isValidJson` supplies fuel
exceeding any possible nesting depth of its input, so `false` means the
string is not syntactically valid JSON. -/

/-- JSON insignificant whitespace. -/
def jIsWs (c : Char) : Bool :=
  c.toNat = 32 || c.toNat = 9 || c.toNat = 10 || c.toNat = 13

/-- Skip whitespace. -/
def jws (cs : List Char) : List Char := cs.dropWhile jIsWs

/-- ASCII digit. -/
def jIsDigit (c : Char) : Bool := 48 ≤ c.toNat && c.toNat ≤ 57

/-- ASCII hex digit. -/
def jIsHex (c : Char) : Bool :=
  jIsDigit c || (65 ≤ c.toNat && c.toNat ≤ 70) || (97 ≤ c.toNat && c.toNat ≤ 102)

/-- Parse the body of a string literal after the opening quote, through the
closing quote. -/
def parseStringBody : List Char → Option (List Char)
  | [] => none
  | c :: rest =>
    if c.toNat = 34 then some rest
    else if c.toNat = 92 then
      match rest with
      | [] => none
      | e :: rest2 =>
        if e.toNat = 34 || e.toNat = 92 || e.toNat = 47 || e.toNat = 98 || e.toNat = 102 ||
            e.toNat = 110 || e.toNat = 114 || e.toNat = 116 then
          parseStringBody rest2
        else if e.toNat = 117 then
          match rest2 with
          | h1 :: h2 :: h3 :: h4 :: rest3 =>
            if jIsHex h1 && jIsHex h2 && jIsHex h3 && jIsHex h4 then parseStringBody rest3
            else none
          | _ => none
        else none
    else if c.toNat < 32 then none
    else parseStringBody rest

/-- Expect the exact character codes `codes` at the head. -/
def expectCodes : List Nat → List Char → Option (List Char)
  | [], cs => some cs
  | _ :: _, [] => none
  | n :: ns, c :: cs => if c.toNat = n then expectCodes ns cs else none

/-- One-or-more digits. -/
def parseDigits (cs : List Char) : Option (List Char) :=
  if (cs.takeWhile jIsDigit).isEmpty then none else some (cs.dropWhile jIsDigit)

/-- The integer part of a number: `0` or a nonzero digit followed by
digits. -/
def parseIntPart : List Char → Option (List Char)
  | [] => none
  | c :: rest =>
    if c.toNat = 48 then some rest
    else if jIsDigit c then some (rest.dropWhile jIsDigit)
    else none

/-- Optional fraction part. -/
def parseFrac : List Char → Option (List Char)
  | [] => some []
  | c :: rest => if c.toNat = 46 then parseDigits rest else some (c :: rest)

/-- Optional exponent part. -/
def parseExp : List Char → Option (List Char)
  | [] => some []
  | c :: rest =>
    if c.toNat = 101 || c.toNat = 69 then
      match rest with
      | [] => none
      | d :: rest2 =>
        if d.toNat = 43 || d.toNat = 45 then parseDigits rest2 else parseDigits (d :: rest2)
    else some (c :: rest)

/-- A JSON number. -/
def parseNumber (l : List Char) : Option (List Char) :=
  let l1 := match l with
    | c :: rest => if c.toNat = 45 then rest else l
    | [] => l
  match parseIntPart l1 with
  | none => none
  | some l2 =>
    match parseFrac l2 with
    | none => none
    | some l3 => parseExp l3

/-- Parser modes: a JSON value, the inside of an object after `\x7b`, one
`"key": value` member and its continuation, the inside of an array after
`[`, and one array element and its continuation. -/
inductive PMode where
  | value | objBody | member | arrBody | elem

/-- The recursive part of the JSON grammar, fueled: every recursive call
decreases the fuel, and `isValidJson` supplies fuel exceeding any possible
nesting of its input. -/
def parseJ : Nat → PMode → List Char → Option (List Char)
  | 0, _, _ => none
  | _ + 1, .value, [] => none
  | fuel + 1, .value, c :: rest =>
    if c.toNat = 123 then parseJ fuel .objBody (jws rest)
    else if c.toNat = 91 then parseJ fuel .arrBody (jws rest)
    else if c.toNat = 34 then parseStringBody rest
    else if c.toNat = 116 then expectCodes [114, 117, 101] rest
    else if c.toNat = 102 then expectCodes [97, 108, 115, 101] rest
    else if c.toNat = 110 then expectCodes [117, 108, 108] rest
    else parseNumber (c :: rest)
  | _ + 1, .objBody, [] => none
  | fuel + 1, .objBody, c :: rest =>
    if c.toNat = 125 then some rest
    else parseJ fuel .member (c :: rest)
  | _ + 1, .member, [] => none
  | fuel + 1, .member, c :: rest =>
    if c.toNat = 34 then
      match parseStringBody rest with
      | none => none
      | some afterKey =>
        match jws afterKey with
        | [] => none
        | c2 :: rest2 =>
          if c2.toNat = 58 then
            match parseJ fuel .value (jws rest2) with
            | none => none
            | some afterVal =>
              match jws afterVal with
              | [] => none
              | c3 :: rest3 =>
                if c3.toNat = 125 then some rest3
                else if c3.toNat = 44 then parseJ fuel .member (jws rest3)
                else none
          else none
    else none
  | _ + 1, .arrBody, [] => none
  | fuel + 1, .arrBody, c :: rest =>
    if c.toNat = 93 then some rest
    else parseJ fuel .elem (c :: rest)
  | fuel + 1, .elem, cs =>
    match parseJ fuel .value cs with
    | none => none
    | some afterVal =>
      match jws afterVal with
      | [] => none
      | c2 :: rest2 =>
        if c2.toNat = 93 then some rest2
        else if c2.toNat = 44 then parseJ fuel .elem (jws rest2)
        else none

/-- A JSON value (fueled). -/
def parseValue (fuel : Nat) (cs : List Char) : Option (List Char) :=
  parseJ fuel .value cs

/-- Whether a string is syntactically valid JSON (one value, surrounded by
optional whitespace). -/
def isValidJson (s : String) : Bool :=
  match parseValue (s.length + 1) (jws s.data) with
  | some rest => (jws rest).isEmpty
  | none => false

/-! ## Derived observations and helper predicates -/

deriving instance DecidableEq for Except

/-- The variant name of the error of a failed call, `none` on success. -/
def errKindOf {α : Type} : Except PayloadError α → Option String
  | .error e => some e.kindName
  | .ok _ => none

/-- Whether an inspection result satisfies the header-fit invariant
`24 + manifest_size + metadata_signature_size ≤ N` (vacuously true on
errors). -/
def headerFits : Except PayloadError PayloadInspection → Nat → Bool
  | .ok i, n =>
    decide (HEADER_SIZE + i.header.manifest_size + i.header.metadata_signature_size ≤ n)
  | .error _, _ => true

/-- Whether an inspection result satisfies
`total_size = Σ p.size over partitions` (vacuously true on errors). -/
def totalMatches : Except PayloadError PayloadInspection → Bool
  | .ok i => i.total_size == (i.partitions.map (·.size)).sum
  | .error _ => true

/-- The characters whose interpolation between the quotes of a JSON string
literal keeps the literal well formed: at least space, not a double quote,
not a backslash. -/
def plainChar (c : Char) : Bool :=
  decide (32 ≤ c.toNat) && !(decide (c.toNat = 34)) && !(decide (c.toNat = 92))

/-- All characters of the string are `plainChar`. -/
def plainText (s : String) : Bool := s.data.all plainChar

/-- The trace of a run decomposes into consecutive blocks, one per
partition in manifest order, each block holding only events that name its
partition: every event for a partition precedes every event for a later
partition. -/
inductive TraceBlocks : List PartitionUpdate → List ProgressEvent → Prop where
  | nil (ps : List PartitionUpdate) : TraceBlocks ps []
  | cons (p : PartitionUpdate) (ps : List PartitionUpdate)
      (block rest : List ProgressEvent) :
      (∀ e ∈ block, e.name = p.partition_name) → TraceBlocks ps rest →
      TraceBlocks (p :: ps) (block ++ rest)

/-- `bytes_processed` accumulation across a partition list, starting from
`processed` (the loop's `bytes_processed += partition_size` in `u64`). -/
def foldProcessed (processed : Nat) (ps : List PartitionUpdate) : Nat :=
  ps.foldl (fun a p => u64 (a + partitionSize p)) processed

/-! ## Concrete instances used by the closed theorems

The decoders below are table decoders standing in for the generated
protobuf decoder on the specific manifest bytes of the closed theorems;
every `DeltaArchiveManifest` value used is representable in
`update_metadata.proto` (partition names are `string`, sizes are
`uint64`). -/

/-- Decoder of the empty manifest: the empty byte string decodes to the
all-defaults message. -/
def decEmpty : ManifestDecoder := fun bsx =>
  if bsx = [] then .ok ⟨none, none, none, []⟩ else .error "unexpected manifest bytes"

/-- A minimal well-formed 24-byte payload: magic, version 2, manifest size
0, metadata signature size 0. -/
def file24zz : List Nat :=
  [0x43, 0x72, 0x41, 0x55, 0, 0, 0, 0, 0, 0, 0, 2,
   0, 0, 0, 0, 0, 0, 0, 0, 0, 0, 0, 0]

/-- As `file24zz`, but declaring a 1000-byte metadata signature that the
24-byte file cannot contain. -/
def file24sig : List Nat :=
  [0x43, 0x72, 0x41, 0x55, 0, 0, 0, 0, 0, 0, 0, 2,
   0, 0, 0, 0, 0, 0, 0, 0, 0, 0, 0x03, 0xE8]

/-- A 24-byte file whose magic starts with a backslash (byte `0x5C`). -/
def badMagicFile : List Nat := [0x5C, 0x41, 0x41, 0x55] ++ List.replicate 20 0

/-- A stat oracle that always fails. -/
def statNone : String → Option Nat := fun _ => none

/-- A manifest declaring one partition whose name escapes the output
directory. -/
def unsafeManifest : DeltaArchiveManifest :=
  ⟨none, none, none, [⟨"../evil", none, []⟩]⟩

/-- Table decoder for `unsafeManifest`. -/
def decUnsafe : ManifestDecoder := fun bsx =>
  if bsx = [] then .ok unsafeManifest else .error "unexpected manifest bytes"

/-- Environment for the path-safety run. -/
def envUnsafe : ExtractEnv :=
  ⟨decUnsafe, fun _ => .error "xz", fun _ => .error "bz", statNone⟩

/-- A manifest with a 6-byte `REPLACE` partition `a` followed by a
sizeless partition `b` whose single operation reads past the end of the
file. -/
def manifest5 : DeltaArchiveManifest :=
  ⟨none, none, none,
    [⟨"a", some ⟨some 6⟩, [⟨.Replace, some 0, some 6⟩]⟩,
     ⟨"b", none, [⟨.Replace, some 0, some 10⟩]⟩]⟩

/-- Table decoder for `manifest5`. -/
def decFail5 : ManifestDecoder := fun bsx =>
  if bsx = [] then .ok manifest5 else .error "unexpected manifest bytes"

/-- Environment for the failing progress run. -/
def env5 : ExtractEnv :=
  ⟨decFail5, fun _ => .error "xz", fun _ => .error "bz", fun _ => some 6⟩

/-- `file24zz` followed by a 6-byte data blob. -/
def file30 : List Nat := file24zz ++ [65, 65, 65, 65, 66, 66]

/-- Environment for the empty-manifest run. -/
def envEmpty : ExtractEnv :=
  ⟨decEmpty, fun _ => .error "xz", fun _ => .error "bz", statNone⟩

/-- A manifest with two partitions of `2 ^ 63` bytes each, whose `u64` size
sum wraps to zero. -/
def bigManifest : DeltaArchiveManifest :=
  ⟨none, none, none,
    [⟨"a", some ⟨some (2 ^ 63)⟩, []⟩, ⟨"b", some ⟨some (2 ^ 63)⟩, []⟩]⟩

/-- Table decoder for `bigManifest`. -/
def decBig : ManifestDecoder := fun bsx =>
  if bsx = [] then .ok bigManifest else .error "unexpected manifest bytes"

/-- A manifest declaring partitions in descending name order. -/
def unsortedManifest : DeltaArchiveManifest :=
  ⟨none, none, none, [⟨"b", some ⟨some 7⟩, []⟩, ⟨"a", some ⟨some 5⟩, []⟩]⟩

/-- Table decoder for `unsortedManifest`. -/
def decUnsorted : ManifestDecoder := fun bsx =>
  if bsx = [] then .ok unsortedManifest else .error "unexpected manifest bytes"

/-- The inspection produced for `unsortedManifest`: summaries sorted
ascending by name. -/
def inspUnsorted : PayloadInspection :=
  ⟨⟨2, 0, 0⟩, 4096, false, none,
    [⟨"a", 5, 0, "5 B"⟩, ⟨"b", 7, 0, "7 B"⟩], 12, "12 B", "/p", none⟩

/-- A codec that rejects every input, as the external decompressors do on
truncated or malformed streams. -/
def codecFailT : Codec := fun _ => .error "truncated stream"

/-- A one-partition manifest with no operations. -/
def bootManifest : DeltaArchiveManifest :=
  ⟨none, none, none, [⟨"boot", some ⟨some 0⟩, []⟩]⟩

/-- Table decoder for `bootManifest`. -/
def decBoot : ManifestDecoder := fun bsx =>
  if bsx = [] then .ok bootManifest else .error "unexpected manifest bytes"

/-- Environment for the one-partition run. -/
def envBoot : ExtractEnv :=
  ⟨decBoot, fun _ => .error "xz", fun _ => .error "bz", statNone⟩

/-! ## Theorems -/

/-- C9: the five concrete values of the spec, the `"{n} B"` clause below
1024, and the largest-unit selection with a two-decimal-digit rendering for
KB, MB and GB. -/
theorem claim_C9 :
    format_size 0 = "0 B" ∧ format_size 1024 = "1.00 KB" ∧
    format_size 1536 = "1.50 KB" ∧ format_size 1048576 = "1.00 MB" ∧
    format_size 1073741824 = "1.00 GB" ∧
    (∀ n, n < 1024 → format_size n = toString n ++ " B") ∧
    (∀ n, 1024 ≤ n → n < 1024 * 1024 →
      ∃ a b : Nat, b < 100 ∧ format_size n = toString a ++ "." ++ twoFrac b ++ " KB") ∧
    (∀ n, 1024 * 1024 ≤ n → n < 1024 * 1024 * 1024 →
      ∃ a b : Nat, b < 100 ∧ format_size n = toString a ++ "." ++ twoFrac b ++ " MB") ∧
    (∀ n, 1024 * 1024 * 1024 ≤ n →
      ∃ a b : Nat, b < 100 ∧ format_size n = toString a ++ "." ++ twoFrac b ++ " GB") := by
  refine ⟨by decide, by decide, by decide, by decide, by decide, ?_, ?_, ?_, ?_⟩
  · intro n h
    simp only [format_size]
    rw [if_neg (by omega), if_neg (by omega), if_neg (by omega)]
  · intro n h1 h2
    refine ⟨scaled2 n 10 / 100, scaled2 n 10 % 100, Nat.mod_lt _ (by norm_num), ?_⟩
    simp only [format_size]
    rw [if_neg (by omega), if_neg (by omega), if_pos (by omega)]
    rfl
  · intro n h1 h2
    refine ⟨scaled2 n 20 / 100, scaled2 n 20 % 100, Nat.mod_lt _ (by norm_num), ?_⟩
    simp only [format_size]
    rw [if_neg (by omega), if_pos (by omega)]
    rfl
  · intro n h1
    refine ⟨scaled2 n 30 / 100, scaled2 n 30 % 100, Nat.mod_lt _ (by norm_num), ?_⟩
    simp only [format_size]
    rw [if_pos (by omega)]
    rfl

/-- Witness for C9 at `n = 5000000000` (GB clause). -/
theorem claim_C9_witness :
    ∃ a b : Nat, b < 100 ∧
      format_size 5000000000 = toString a ++ "." ++ twoFrac b ++ " GB" :=
  claim_C9.2.2.2.2.2.2.2.2 5000000000 (by norm_num)

/-- C4 (amended): whenever the underlying streaming decoder fails with
detail `e`, `decompress_xz`/`decompress_bz2` fail with an `Io`-kind error
whose message is the fixed codec prefix followed by `e`; the error kind is
`Io`, not `CodecFailure` (the source error enum has no such variant). -/
theorem claim_C4 (xz bz2c : Codec) (data : List Nat) (e : String) :
    (xz data = .error e →
      decompress_xz xz data = .error (.Io ("XZ decompression failed: " ++ e)) ∧
      errKindOf (decompress_xz xz data) = some "Io") ∧
    (bz2c data = .error e →
      decompress_bz2 bz2c data = .error (.Io ("Bzip2 decompression failed: " ++ e)) ∧
      errKindOf (decompress_bz2 bz2c data) = some "Io") := by
  constructor
  · intro h
    simp [decompress_xz, h, errKindOf, PayloadError.kindName]
  · intro h
    simp [decompress_bz2, h, errKindOf, PayloadError.kindName]

/-- Witness for C4: a codec failing with detail `"truncated stream"`. -/
theorem claim_C4_witness :
    decompress_xz codecFailT [0] =
      .error (.Io ("XZ decompression failed: " ++ "truncated stream")) ∧
    errKindOf (decompress_xz codecFailT [0]) = some "Io" :=
  (claim_C4 codecFailT codecFailT [0] "truncated stream").1 rfl

/-- Counterexample for C4 as stated: on a malformed stream both codec
functions produce an error of kind `Io`, not `CodecFailure`. -/
theorem claim_C4_counterexample :
    errKindOf (decompress_xz codecFailT [0]) = some "Io" ∧
    errKindOf (decompress_bz2 codecFailT [0]) = some "Io" ∧
    errKindOf (decompress_xz codecFailT [0]) ≠ some "CodecFailure" ∧
    errKindOf (decompress_bz2 codecFailT [0]) ≠ some "CodecFailure" := by
  refine ⟨by decide, by decide, by decide, by decide⟩

/-- C6: per-operation behaviour of the extractor: no data segment (absent
or zero `data_length`) contributes nothing; with a readable segment,
`REPLACE` and every non-full-image type append the raw segment bytes
without failing, `REPLACE_BZ`/`REPLACE_XZ` append the decoded bytes when
the codec succeeds. -/
theorem claim_C6 (env : ExtractEnv) (file : List Nat) (dataOff : Nat)
    (buf : List Nat) (op : InstallOperation) (dl : Nat) (seg : List Nat) :
    (op.data_length = none → applyOp env file dataOff buf op = .ok buf) ∧
    (op.data_length = some 0 → applyOp env file dataOff buf op = .ok buf) ∧
    (op.data_length = some dl → 0 < dl →
      readExactAt file (segmentStart dataOff op) dl = .ok seg →
      ((op.type = .Replace → applyOp env file dataOff buf op = .ok (buf ++ seg)) ∧
       (op.type ≠ .Replace → op.type ≠ .ReplaceBz → op.type ≠ .ReplaceXz →
         applyOp env file dataOff buf op = .ok (buf ++ seg)) ∧
       (∀ d, op.type = .ReplaceBz → env.bz2 seg = .ok d →
         applyOp env file dataOff buf op = .ok (buf ++ d)) ∧
       (∀ d, op.type = .ReplaceXz → env.xz seg = .ok d →
         applyOp env file dataOff buf op = .ok (buf ++ d)))) := by
  refine ⟨?_, ?_, ?_⟩
  · intro h
    simp [applyOp, h]
  · intro h
    simp [applyOp, h]
  · intro hdl hpos hread
    have hne : ¬ dl = 0 := by omega
    refine ⟨?_, ?_, ?_, ?_⟩
    · intro ht
      simp [applyOp, hdl, hne, hread, ht]
    · intro h1 h2 h3
      cases htype : op.type
      case Replace => exact absurd htype h1
      case ReplaceBz => exact absurd htype h2
      case ReplaceXz => exact absurd htype h3
      all_goals simp [applyOp, hdl, hne, hread, htype]
    · intro d ht hc
      simp [applyOp, hdl, hne, hread, ht, decompress_bz2, hc]
    · intro d ht hc
      simp [applyOp, hdl, hne, hread, ht, decompress_xz, hc]

/-- Witness for C6: an unsupported `ZERO` operation with a 6-byte data
segment appends the raw segment bytes and does not fail. -/
theorem claim_C6_witness :
    applyOp envBoot file30 24 [] ⟨.Zero, some 0, some 6⟩ =
      .ok ([] ++ [65, 65, 65, 65, 66, 66]) :=
  ((claim_C6 envBoot file30 24 [] ⟨.Zero, some 0, some 6⟩ 6
      [65, 65, 65, 65, 66, 66]).2.2 rfl (by omega) (by decide)).2.1
    (by decide) (by decide) (by decide)

/-- Success of `inspect_payload` forces the source's guard conditions: the
ok branch sits under every validation `if`. -/
theorem inspect_ok_guards (dec : ManifestDecoder) (path : String) (file : List Nat)
    (i : PayloadInspection) (h : inspect_payload dec path file = .ok i) :
    ∃ m, dec ((file.drop 24).take (beBytes ((file.drop 12).take 8))) = .ok m ∧
      i = buildInspection path (beBytes ((file.drop 4).take 8))
        (beBytes ((file.drop 12).take 8)) (beBytes ((file.drop 20).take 4)) m ∧
      HEADER_SIZE + beBytes ((file.drop 12).take 8) ≤ file.length := by
  simp only [inspect_payload] at h
  split at h
  · exact absurd h (by simp)
  split at h
  · exact absurd h (by simp)
  split at h
  · exact absurd h (by simp)
  split at h
  · exact absurd h (by simp)
  split at h
  · exact absurd h (by simp)
  split at h
  · exact absurd h (by simp)
  next hfit =>
    split at h
    next he => exact absurd h (by simp)
    next m hm =>
      refine ⟨m, hm, ?_, by omega⟩
      cases h
      rfl

/-- C2 (amended): success of `inspect` on a length-`N` file guarantees that
the manifest region fits, `24 + manifest_size ≤ N` (the manifest
`read_exact` fails otherwise); the metadata-signature region is read from
the header but never checked against the file length. -/
theorem claim_C2 (dec : ManifestDecoder) (path : String) (file : List Nat)
    (i : PayloadInspection) (h : inspect_payload dec path file = .ok i) :
    HEADER_SIZE + i.header.manifest_size ≤ file.length := by
  obtain ⟨m, hm, hi, hfit⟩ := inspect_ok_guards dec path file i h
  rw [hi]
  exact hfit

/-- Witness for C2 on the minimal well-formed payload. -/
theorem claim_C2_witness :
    HEADER_SIZE +
      (buildInspection "/p" 2 0 0 ⟨none, none, none, []⟩).header.manifest_size ≤
      file24zz.length := by
  have h := claim_C2 decEmpty "/p" file24zz
    (buildInspection "/p" 2 0 0 ⟨none, none, none, []⟩) (by decide)
  exact h

/-- Counterexample for C2 as stated: a 24-byte payload declaring a
1000-byte metadata signature is inspected successfully although
`24 + manifest_size + metadata_signature_size = 1024 > 24 = N`. -/
theorem claim_C2_counterexample :
    (inspect_payload decEmpty "/p" file24sig).isOk = true ∧
    headerFits (inspect_payload decEmpty "/p" file24sig) file24sig.length = false := by
  constructor
  · decide
  · decide

/-- Wrapping fold against plain sum: the `total_size += size` loop computes
the sum modulo `2 ^ 64`. -/
theorem foldl_u64_add (l : List Nat) :
    ∀ a : Nat, l.foldl (fun acc s => u64 (acc + s)) (a % 2 ^ 64) = (a + l.sum) % 2 ^ 64 := by
  induction l with
  | nil => intro a; simp [u64]
  | cons s t ih =>
    intro a
    have h1 : u64 (a % 2 ^ 64 + s) = (a + s) % 2 ^ 64 := by
      simp [u64, Nat.mod_add_mod]
    simp only [List.foldl_cons, h1]
    rw [ih (a + s)]
    rw [List.sum_cons, Nat.add_assoc]

/-- `totalOf` is the `u64`-wrapped sum of the partition sizes. -/
theorem totalOf_eq (ps : List PartitionUpdate) :
    totalOf ps = u64 ((ps.map partitionSize).sum) := by
  have hfold : ps.foldl (fun acc p => u64 (acc + partitionSize p)) 0 =
      (ps.map partitionSize).foldl (fun acc s => u64 (acc + s)) 0 := by
    rw [List.foldl_map]
  have h0 : (0 : Nat) = 0 % 2 ^ 64 := by norm_num
  rw [totalOf, hfold, h0, foldl_u64_add]
  simp [u64]

/-- The same partition-size list read through the summaries. -/
theorem map_size_summary (ps : List PartitionUpdate) :
    (ps.map summaryOf).map (·.size) = ps.map partitionSize := by
  rw [List.map_map]
  rfl

/-- Sorting does not change the size multiset, hence not the sum. -/
theorem sum_sizes_sortByName (l : List PartitionInfo) :
    ((sortByName l).map (·.size)).sum = (l.map (·.size)).sum :=
  ((List.perm_insertionSort nameLe l).map (·.size)).sum_eq

/-- C7 (amended): `total_size` equals the sum of the returned partition
sizes reduced modulo `2 ^ 64` (the accumulation is `u64` addition), hence
equals the exact sum whenever that sum is below `2 ^ 64`. -/
theorem claim_C7 (dec : ManifestDecoder) (path : String) (file : List Nat)
    (i : PayloadInspection) (h : inspect_payload dec path file = .ok i) :
    i.total_size = u64 ((i.partitions.map (·.size)).sum) ∧
    ((i.partitions.map (·.size)).sum < 2 ^ 64 →
      i.total_size = (i.partitions.map (·.size)).sum) := by
  obtain ⟨m, hm, hi, hfit⟩ := inspect_ok_guards dec path file i h
  subst hi
  have hsum : ((buildInspection path (beBytes ((file.drop 4).take 8))
      (beBytes ((file.drop 12).take 8)) (beBytes ((file.drop 20).take 4))
      m).partitions.map (·.size)).sum = (m.partitions.map partitionSize).sum := by
    simp only [buildInspection]
    rw [sum_sizes_sortByName, map_size_summary]
  constructor
  · rw [hsum]
    simp only [buildInspection]
    exact totalOf_eq m.partitions
  · intro hlt
    rw [hsum] at hlt ⊢
    simp only [buildInspection]
    rw [totalOf_eq]
    unfold u64
    omega

/-- Witness for C7 on a two-partition manifest (sizes 5 and 7). -/
theorem claim_C7_witness :
    inspUnsorted.total_size = u64 ((inspUnsorted.partitions.map (·.size)).sum) ∧
    ((inspUnsorted.partitions.map (·.size)).sum < 2 ^ 64 →
      inspUnsorted.total_size = (inspUnsorted.partitions.map (·.size)).sum) :=
  claim_C7 decUnsorted "/p" file24zz inspUnsorted (by decide)

/-- Counterexample for C7 as stated: two partitions of `2 ^ 63` bytes each
make `total_size` wrap to 0 while the partitions list sums to `2 ^ 64`. -/
theorem claim_C7_counterexample :
    (inspect_payload decBig "/p" file24zz).isOk = true ∧
    totalMatches (inspect_payload decBig "/p" file24zz) = false := by
  constructor
  · decide
  · decide

/-- Reflexivity of the lexicographic comparison. -/
theorem charListLe_refl (l : List Char) : charListLe l l = true := by
  induction l with
  | nil => rfl
  | cons c cs ih => simp [charListLe, ih]

/-- Inserting preserves, position-exactly, the sublist of entries bearing
any fixed name: entries passed over by `orderedInsert` compare strictly
below the inserted name. -/
theorem filter_orderedInsert (n : String) (x : PartitionInfo) (l : List PartitionInfo) :
    (List.orderedInsert nameLe x l).filter (fun p => p.name == n) =
      if x.name == n then x :: l.filter (fun p => p.name == n)
      else l.filter (fun p => p.name == n) := by
  induction l with
  | nil =>
    simp only [List.orderedInsert, List.filter]
    split
    next h => rw [if_pos h]
    next h => rw [if_neg (by simp [h])]
  | cons b l ih =>
    simp only [List.orderedInsert]
    by_cases hle : nameLe x b
    · rw [if_pos hle]
      by_cases hx : (x.name == n) = true <;> simp [List.filter_cons, hx]
    · rw [if_neg hle]
      have hbx : b.name ≠ x.name := by
        intro he
        exact hle (by unfold nameLe strLe; rw [he]; exact charListLe_refl _)
      rw [List.filter_cons, ih]
      by_cases hx : (x.name == n) = true
      · have hxn : x.name = n := by simpa using hx
        have hbn : (b.name == n) = false := by
          simp only [beq_eq_false_iff_ne, ne_eq]
          rw [hxn] at hbx
          exact hbx
        simp [hx, hbn, List.filter_cons]
      · simp [hx, List.filter_cons]

/-- Stability of the sort: for every name, the entries bearing it appear in
the sorted list in their original relative order. -/
theorem filter_sortByName (l : List PartitionInfo) (n : String) :
    (sortByName l).filter (fun p => p.name == n) = l.filter (fun p => p.name == n) := by
  induction l with
  | nil => rfl
  | cons x l ih =>
    simp only [sortByName, List.insertionSort] at *
    rw [filter_orderedInsert, ih]
    by_cases hx : (x.name == n) = true <;> simp [hx, List.filter_cons]

/-- C8: the partitions list of a successful inspection is sorted ascending
by name in code-point order, and the sort is stable: entries with equal
names keep their manifest-declared relative order. -/
theorem claim_C8 :
    (∀ (dec : ManifestDecoder) (path : String) (file : List Nat) (i : PayloadInspection),
      inspect_payload dec path file = .ok i → List.Pairwise nameLe i.partitions) ∧
    (∀ (l : List PartitionInfo) (n : String),
      (sortByName l).filter (fun p => p.name == n) = l.filter (fun p => p.name == n)) := by
  constructor
  · intro dec path file i h
    obtain ⟨m, hm, hi, hfit⟩ := inspect_ok_guards dec path file i h
    subst hi
    simp only [buildInspection]
    exact List.sorted_insertionSort nameLe (m.partitions.map summaryOf)
  · exact filter_sortByName

/-- Witness for C8: a manifest declaring `b` before `a` is reported with
`a` before `b`. -/
theorem claim_C8_witness : List.Pairwise nameLe inspUnsorted.partitions :=
  claim_C8.1 decUnsorted "/p" file24zz inspUnsorted (by decide)

/-- C10: after a partition's operations complete, the recorded size is
whatever `fs::metadata(..).map(|m| m.len())` returns, with `unwrap_or(0)`:
a failing stat records size 0 and the loop still returns its entries
successfully. -/
theorem claim_C10 (env : ExtractEnv) (file : List Nat) (dataOff total : Nat)
    (out : String) (cb : Bool) (ps : List PartitionUpdate) (processed : Nat)
    (p : PartitionUpdate) (buf : List Nat) (evs2 : List ProgressEvent)
    (fls2 : List (String × List Nat)) (l : List ExtractedPartition)
    (hops : applyOps env file dataOff p.operations [] = .ok buf)
    (hrest : extractLoop env file dataOff total out cb ps (u64 (processed + partitionSize p)) =
      (evs2, fls2, .ok l)) :
    (extractLoop env file dataOff total out cb (p :: ps) processed).2.2 =
      .ok (⟨p.partition_name,
          (env.stat (pathJoin out (p.partition_name ++ ".img"))).getD 0,
          pathJoin out (p.partition_name ++ ".img")⟩ :: l) ∧
    (env.stat (pathJoin out (p.partition_name ++ ".img")) = none →
      (extractLoop env file dataOff total out cb (p :: ps) processed).2.2 =
        .ok (⟨p.partition_name, 0, pathJoin out (p.partition_name ++ ".img")⟩ :: l)) := by
  constructor
  · simp only [extractLoop, hops, hrest]
  · intro hstat
    simp only [extractLoop, hops, hrest, hstat, Option.getD_none]

/-- Witness for C10: a run over one empty partition whose stat oracle
always fails still succeeds and records size 0. -/
theorem claim_C10_witness :
    (extractLoop envBoot file24zz 24 0 "/out" true [⟨"boot", some ⟨some 0⟩, []⟩] 0).2.2 =
      .ok [⟨"boot", 0, pathJoin "/out" ("boot" ++ ".img")⟩] :=
  (claim_C10 envBoot file24zz 24 0 "/out" true [] 0 ⟨"boot", some ⟨some 0⟩, []⟩
      [] [] [] [] rfl rfl).2 rfl

/-- C3: a payload whose manifest declares the partition name `"../evil"`
is extracted without any rejection: no `InvalidInput` error exists in the
error type, the name is joined verbatim into the output path, and the run
reports success writing `/out/../evil.img`, which escapes the output
directory. -/
theorem claim_C3 :
    extract_payload envUnsafe "/p" "/out" file24zz false =
      ([], [("/out/../evil.img", [])],
        .ok ⟨"success", [⟨"../evil", 0, "/out/../evil.img"⟩]⟩) := by
  decide

/-- Every trace produced by the partition loop decomposes into per-partition
blocks in manifest order. -/
theorem traceBlocks_extractLoop (env : ExtractEnv) (file : List Nat)
    (dataOff total : Nat) (out : String) (cb : Bool) :
    ∀ (ps : List PartitionUpdate) (processed : Nat),
      TraceBlocks ps (extractLoop env file dataOff total out cb ps processed).1 := by
  intro ps
  induction ps with
  | nil => intro processed; exact TraceBlocks.nil []
  | cons p ps ih =>
    intro processed
    simp only [extractLoop]
    cases happ : applyOps env file dataOff p.operations [] with
    | error e =>
      simp only [happ]
      have hblk : TraceBlocks (p :: ps)
          ((if cb then
              [⟨p.partition_name, startPercent processed total, processed, total⟩]
            else ([] : List ProgressEvent)) ++ []) :=
        TraceBlocks.cons p ps _ [] (by split <;> simp) (TraceBlocks.nil ps)
      simpa using hblk
    | ok buf =>
      simp only [happ]
      exact TraceBlocks.cons p ps _ _
        (by
          intro e he
          rcases List.mem_append.1 he with h | h <;> revert h <;> split
          · intro h; rw [List.mem_singleton] at h; subst h; rfl
          · intro h; simp at h
          · intro h; rw [List.mem_singleton] at h; subst h; rfl
          · intro h; simp at h)
        (ih (u64 (processed + partitionSize p)))

/-- `endPercent` at completion is exactly 100. -/
theorem endPercent_self (t : Nat) : endPercent t t = 100 := by
  unfold endPercent
  split
  · rfl
  · next h =>
    rw [Nat.mul_comm]
    exact Nat.mul_div_cancel 100 (Nat.pos_of_ne_zero h)

/-- With a callback installed, a successful pass over a nonempty partition
list ends with the completion event of its last partition, whose percent is
`endPercent` of the accumulated `bytes_processed`. -/
theorem lastPercent_extractLoop (env : ExtractEnv) (file : List Nat)
    (dataOff total : Nat) (out : String) :
    ∀ (ps : List PartitionUpdate) (processed : Nat) (evs : List ProgressEvent)
      (fls : List (String × List Nat)) (l : List ExtractedPartition),
      extractLoop env file dataOff total out true ps processed = (evs, fls, .ok l) →
      ps ≠ [] →
      evs.getLast?.map (·.percent) = some (endPercent (foldProcessed processed ps) total) := by
  intro ps
  induction ps with
  | nil => intro _ _ _ _ _ hne; exact absurd rfl hne
  | cons p ps ih =>
    intro processed evs fls l h _
    simp only [extractLoop] at h
    cases happ : applyOps env file dataOff p.operations [] with
    | error e =>
      rw [happ] at h
      simp at h
    | ok buf =>
      rw [happ] at h
      rcases hrest : extractLoop env file dataOff total out true ps
          (u64 (processed + partitionSize p)) with ⟨evs2, fls2, res2⟩
      rw [hrest] at h
      cases res2 with
      | error e => simp at h
      | ok l2 =>
        simp only at h
        obtain ⟨hevs, hfls, hl⟩ : _ ∧ _ ∧ _ := by
          refine ⟨congrArg (fun t => t.1) h, congrArg (fun t => t.2.1) h,
            congrArg (fun t => t.2.2) h⟩
        simp only at hevs hfls hl
        cases ps with
        | nil =>
          have hevs2 : evs2 = [] := by
            have h1 := congrArg (fun t => t.1) hrest
            simp [extractLoop] at h1
            exact h1
          subst hevs2
          rw [← hevs]
          simp [List.getLast?, foldProcessed]
        | cons q qs =>
          have hlast := ih (u64 (processed + partitionSize p)) evs2 fls2 l2 hrest (by simp)
          cases hlast2 : evs2.getLast? with
          | none => rw [hlast2] at hlast; simp at hlast
          | some ev =>
            rw [hlast2] at hlast
            simp only [Option.map_some'] at hlast
            have hfold : foldProcessed processed (p :: q :: qs) =
                foldProcessed (u64 (processed + partitionSize p)) (q :: qs) := by
              simp [foldProcessed]
            rw [hfold, ← hlast]
            rw [← hevs]
            have hne2 : evs2 ≠ [] := by
              intro hx
              rw [hx] at hlast2
              simp at hlast2
            rw [List.getLast?_append, hlast2]
            rfl

/-- The `filter_map` sum of present sizes equals the sum over
`partitionSize` (absent sizes count 0). -/
theorem sum_filterMap_sizes (ps : List PartitionUpdate) :
    (ps.filterMap (fun p => p.new_partition_info.bind (·.size))).sum =
      (ps.map partitionSize).sum := by
  induction ps with
  | nil => rfl
  | cons p ps ih =>
    cases hopt : p.new_partition_info.bind (·.size) with
    | none => simp [List.filterMap_cons, hopt, partitionSize, ih]
    | some v => simp [List.filterMap_cons, hopt, partitionSize, ih]

/-- `bytes_processed` accumulated over the whole manifest equals
`total_bytes` (absent sizes contribute 0 to the fold and are skipped by the
`filter_map` sum). -/
theorem foldProcessed_totalBytes (ps : List PartitionUpdate) :
    foldProcessed 0 ps = totalBytes ps := by
  show totalOf ps = totalBytes ps
  rw [totalOf_eq, totalBytes, sum_filterMap_sizes]

/-- The events and the result of a run, expressed through the partition
loop, once the two manifest reads succeed. -/
theorem extract_payload_run (env : ExtractEnv) (pp out : String) (file : List Nat)
    (cb : Bool) (insp : PayloadInspection) (m : DeltaArchiveManifest)
    (hi : inspect_payload env.dec pp file = .ok insp)
    (hm : env.dec ((file.drop 24).take insp.header.manifest_size) = .ok m) :
    extractEvents env pp out file cb =
      (extractLoop env file
        (u64 (HEADER_SIZE + insp.header.manifest_size + insp.header.metadata_signature_size))
        (totalBytes m.partitions) out cb m.partitions 0).1 ∧
    extractResult env pp out file cb =
      (match (extractLoop env file
          (u64 (HEADER_SIZE + insp.header.manifest_size + insp.header.metadata_signature_size))
          (totalBytes m.partitions) out cb m.partitions 0).2.2 with
        | .error e => .error e
        | .ok l => .ok (⟨"success", l⟩ : ExtractionResult)) := by
  unfold extractEvents extractResult extract_payload
  rw [hi]
  dsimp only
  rw [hm]
  exact ⟨rfl, rfl⟩

/-- C5 (amended): with a progress callback, every event of a partition
precedes every event of a later partition; and a run that reaches `Done`
with a nonempty partitions list delivers 100 as its final percent.  (The
converse fails: a failing run can also end at percent 100, and a `Done` run
over an empty manifest delivers no events at all.) -/
theorem claim_C5 (env : ExtractEnv) (pp out : String) (file : List Nat)
    (ps : List PartitionUpdate) (hps : partitionsOfRun env pp file = some ps) :
    TraceBlocks ps (extractEvents env pp out file true) ∧
    (∀ r, extractResult env pp out file true = .ok r → ps ≠ [] →
      (extractEvents env pp out file true).getLast?.map (·.percent) = some 100) := by
  unfold partitionsOfRun at hps
  cases hi : inspect_payload env.dec pp file with
  | error e => rw [hi] at hps; simp at hps
  | ok insp =>
    rw [hi] at hps
    dsimp only at hps
    cases hm : env.dec ((file.drop 24).take insp.header.manifest_size) with
    | error e => rw [hm] at hps; simp at hps
    | ok m =>
      rw [hm] at hps
      simp only [Option.some.injEq] at hps
      subst hps
      obtain ⟨hev, hres⟩ := extract_payload_run env pp out file true insp m hi hm
      constructor
      · rw [hev]
        exact traceBlocks_extractLoop env file _ _ out true m.partitions 0
      · intro r hr hne
        rw [hres] at hr
        rcases hrun : extractLoop env file
            (u64 (HEADER_SIZE + insp.header.manifest_size + insp.header.metadata_signature_size))
            (totalBytes m.partitions) out true m.partitions 0 with ⟨evs, fls, res⟩
        rw [hrun] at hr
        cases res with
        | error e => simp at hr
        | ok l =>
          have hlast := lastPercent_extractLoop env file
            (u64 (HEADER_SIZE + insp.header.manifest_size + insp.header.metadata_signature_size))
            (totalBytes m.partitions) out m.partitions 0 evs fls l hrun hne
          rw [foldProcessed_totalBytes, endPercent_self] at hlast
          rw [hev, hrun]
          exact hlast

/-- Witness for C5: the two-partition run over `manifest5`. -/
theorem claim_C5_witness :
    TraceBlocks manifest5.partitions (extractEvents env5 "/p" "/out" file30 true) ∧
    (∀ r, extractResult env5 "/p" "/out" file30 true = .ok r →
      manifest5.partitions ≠ [] →
      (extractEvents env5 "/p" "/out" file30 true).getLast?.map (·.percent) = some 100) :=
  claim_C5 env5 "/p" "/out" file30 manifest5.partitions (by decide)

/-- Counterexample for C5 as stated: the `env5` run fails with
`UnexpectedEof` yet its final delivered percent is 100 (partition `b` has
no declared size, so `bytes_processed` already equals `total_bytes` when
its start event fires); and the empty-manifest run reaches `Done` while
delivering no event at all, hence no final percent of 100. -/
theorem claim_C5_counterexample :
    (extractResult env5 "/p" "/out" file30 true).isOk = false ∧
    (extractEvents env5 "/p" "/out" file30 true).getLast?.map (·.percent) = some 100 ∧
    (extractResult envEmpty "/p" "/out" file24zz true).isOk = true ∧
    extractEvents envEmpty "/p" "/out" file24zz true = [] := by
  refine ⟨by decide, by decide, by decide, by decide⟩

/-- Scanning a JSON string literal body across plain characters succeeds
and consumes through the closing quote. -/
theorem parseStringBody_plain (cs : List Char) (tail : List Char)
    (h : ∀ c ∈ cs, plainChar c = true) :
    parseStringBody (cs ++ Char.ofNat 34 :: tail) = some tail := by
  induction cs with
  | nil =>
    show parseStringBody (Char.ofNat 34 :: tail) = some tail
    unfold parseStringBody
    rw [if_pos (by decide)]
  | cons c cs ih =>
    have hc := h c (List.mem_cons_self c cs)
    simp only [plainChar, Bool.and_eq_true, decide_eq_true_eq, Bool.not_eq_true',
      decide_eq_false_iff_not] at hc
    obtain ⟨⟨h32, h34⟩, h92⟩ := hc
    show parseStringBody (c :: (cs ++ Char.ofNat 34 :: tail)) = some tail
    unfold parseStringBody
    rw [if_neg h34, if_neg h92, if_neg (by omega)]
    exact ih (fun x hx => h x (List.mem_cons_of_mem c hx))

/-- The `inspectPayload` error template parses as one JSON object whenever
the interpolated message is made of plain characters. -/
theorem parseJ_inspectError (n : Nat) (cs : List Char)
    (h : ∀ c ∈ cs, plainChar c = true) :
    parseJ (n + 5) .value (inspectErrorChars cs) = some [] := by
  have hsb := parseStringBody_plain cs [Char.ofNat 125] h
  have hkey := parseStringBody_plain ['e', 'r', 'r', 'o', 'r']
    (Char.ofNat 58 :: Char.ofNat 32 :: Char.ofNat 34 :: (cs ++ [Char.ofNat 34, Char.ofNat 125]))
    (by decide)
  simp only [List.cons_append, List.nil_append] at hkey
  simp [parseJ, jws, List.dropWhile, jIsWs, hsb, hkey, inspectErrorChars]

/-- The `extractPayload` error template parses as one JSON object whenever
the interpolated message is made of plain characters. -/
theorem parseJ_extractError (n : Nat) (cs : List Char)
    (h : ∀ c ∈ cs, plainChar c = true) :
    parseJ (n + 5) .value (extractErrorChars cs) = some [] := by
  have hsb := parseStringBody_plain cs [Char.ofNat 125] h
  have hkey1 := parseStringBody_plain ['s', 't', 'a', 't', 'u', 's']
    (Char.ofNat 58 :: Char.ofNat 34 :: 'e' :: 'r' :: 'r' :: 'o' :: 'r' ::
      Char.ofNat 34 :: Char.ofNat 44 :: Char.ofNat 34 ::
      'm' :: 'e' :: 's' :: 's' :: 'a' :: 'g' :: 'e' ::
      Char.ofNat 34 :: Char.ofNat 58 :: Char.ofNat 34 ::
      (cs ++ [Char.ofNat 34, Char.ofNat 125]))
    (by decide)
  have hval := parseStringBody_plain ['e', 'r', 'r', 'o', 'r']
    (Char.ofNat 44 :: Char.ofNat 34 ::
      'm' :: 'e' :: 's' :: 's' :: 'a' :: 'g' :: 'e' ::
      Char.ofNat 34 :: Char.ofNat 58 :: Char.ofNat 34 ::
      (cs ++ [Char.ofNat 34, Char.ofNat 125]))
    (by decide)
  have hkey2 := parseStringBody_plain ['m', 'e', 's', 's', 'a', 'g', 'e']
    (Char.ofNat 58 :: Char.ofNat 34 :: (cs ++ [Char.ofNat 34, Char.ofNat 125]))
    (by decide)
  simp only [List.cons_append, List.nil_append] at hkey1 hval hkey2
  simp [parseJ, jws, List.dropWhile, jIsWs, hsb, hkey1, hval, hkey2, extractErrorChars]

set_option maxRecDepth 4000 in
/-- Validity of the `inspectPayload` error object for plain messages. -/
theorem valid_inspectErrorJson (msg : String) (h : plainText msg = true) :
    isValidJson (inspectErrorJson msg) = true := by
  have hplain : ∀ c ∈ msg.data, plainChar c = true := by
    simpa [plainText, List.all_eq_true] using h
  unfold isValidJson
  have hdata : (inspectErrorJson msg).data = inspectErrorChars msg.data := rfl
  have hlen : (inspectErrorJson msg).length = msg.data.length + 13 := by
    show (inspectErrorChars msg.data).length = msg.data.length + 13
    simp only [inspectErrorChars, List.length_cons, List.length_append, List.length_nil]
  have hjws : jws (inspectErrorChars msg.data) = inspectErrorChars msg.data := by
    simp [inspectErrorChars, jws, List.dropWhile, jIsWs]
  rw [hdata, hlen, hjws]
  have hfuel : msg.data.length + 13 + 1 = msg.data.length + 9 + 5 := by omega
  unfold parseValue
  rw [hfuel, parseJ_inspectError (msg.data.length + 9) msg.data hplain]
  rfl

set_option maxRecDepth 4000 in
/-- Validity of the `extractPayload` error object for plain messages. -/
theorem valid_extractErrorJson (msg : String) (h : plainText msg = true) :
    isValidJson (extractErrorJson msg) = true := by
  have hplain : ∀ c ∈ msg.data, plainChar c = true := by
    simpa [plainText, List.all_eq_true] using h
  unfold isValidJson
  have hdata : (extractErrorJson msg).data = extractErrorChars msg.data := rfl
  have hlen : (extractErrorJson msg).length = msg.data.length + 31 := by
    show (extractErrorChars msg.data).length = msg.data.length + 31
    simp only [extractErrorChars, List.length_cons, List.length_append, List.length_nil]
  have hjws : jws (extractErrorChars msg.data) = extractErrorChars msg.data := by
    simp [extractErrorChars, jws, List.dropWhile, jIsWs]
  rw [hdata, hlen, hjws]
  have hfuel : msg.data.length + 31 + 1 = msg.data.length + 27 + 5 := by omega
  unfold parseValue
  rw [hfuel, parseJ_extractError (msg.data.length + 27) msg.data hplain]
  rfl

/-- C1 (amended): for every input (in particular any file of at most 64
MiB) both boundary entry points return a string and internal failures are
converted to typed errors and serialized: on success the serde JSON
serialization of the result, on failure the fixed error object with the
message's double quotes replaced by single quotes.  The error object is
guaranteed to be syntactically valid JSON only when the escaped message
contains no backslash and no control character; raw magic bytes reaching
the `InvalidMagic` message can break this (see the counterexample). -/
theorem claim_C1 (dec : ManifestDecoder) (env : ExtractEnv) (pp out : String)
    (file : List Nat) (_hlen : file.length ≤ 64 * 1024 * 1024) (cb : Bool) :
    ((∃ i, inspect_payload dec pp file = .ok i ∧
        inspectPayloadBoundary dec pp file = Json.render (inspectionToJson i)) ∨
     (∃ e, inspect_payload dec pp file = .error e ∧
        inspectPayloadBoundary dec pp file = inspectErrorJson (escapeQuotes e.message) ∧
        (plainText (escapeQuotes e.message) = true →
          isValidJson (inspectPayloadBoundary dec pp file) = true))) ∧
    ((∃ r, extractResult env pp out file cb = .ok r ∧
        extractPayloadBoundary env pp out file cb = Json.render (extractionResultToJson r)) ∨
     (∃ e, extractResult env pp out file cb = .error e ∧
        extractPayloadBoundary env pp out file cb = extractErrorJson (escapeQuotes e.message) ∧
        (plainText (escapeQuotes e.message) = true →
          isValidJson (extractPayloadBoundary env pp out file cb) = true))) := by
  constructor
  · cases hi : inspect_payload dec pp file with
    | ok i =>
      left
      refine ⟨i, rfl, ?_⟩
      unfold inspectPayloadBoundary inspect_payload_json
      rw [hi]
    | error e =>
      right
      have hbound : inspectPayloadBoundary dec pp file =
          inspectErrorJson (escapeQuotes e.message) := by
        unfold inspectPayloadBoundary inspect_payload_json
        rw [hi]
      exact ⟨e, rfl, hbound, fun hp => by
        rw [hbound]; exact valid_inspectErrorJson _ hp⟩
  · cases hr : extractResult env pp out file cb with
    | ok r =>
      left
      refine ⟨r, rfl, ?_⟩
      unfold extractPayloadBoundary extract_payload_json
      rw [hr]
    | error e =>
      right
      have hbound : extractPayloadBoundary env pp out file cb =
          extractErrorJson (escapeQuotes e.message) := by
        unfold extractPayloadBoundary extract_payload_json
        rw [hr]
      exact ⟨e, rfl, hbound, fun hp => by
        rw [hbound]; exact valid_extractErrorJson _ hp⟩

/-- Witness for C1 on the empty file (a `FileTooSmall` failure on both
paths). -/
theorem claim_C1_witness :
    ((∃ i, inspect_payload decEmpty "/p" ([] : List Nat) = .ok i ∧
        inspectPayloadBoundary decEmpty "/p" [] = Json.render (inspectionToJson i)) ∨
     (∃ e, inspect_payload decEmpty "/p" ([] : List Nat) = .error e ∧
        inspectPayloadBoundary decEmpty "/p" [] = inspectErrorJson (escapeQuotes e.message) ∧
        (plainText (escapeQuotes e.message) = true →
          isValidJson (inspectPayloadBoundary decEmpty "/p" []) = true))) ∧
    ((∃ r, extractResult envEmpty "/p" "/out" [] true = .ok r ∧
        extractPayloadBoundary envEmpty "/p" "/out" [] true =
          Json.render (extractionResultToJson r)) ∨
     (∃ e, extractResult envEmpty "/p" "/out" [] true = .error e ∧
        extractPayloadBoundary envEmpty "/p" "/out" [] true =
          extractErrorJson (escapeQuotes e.message) ∧
        (plainText (escapeQuotes e.message) = true →
          isValidJson (extractPayloadBoundary envEmpty "/p" "/out" [] true) = true))) :=
  claim_C1 decEmpty envEmpty "/p" "/out" [] (by norm_num) true

set_option maxRecDepth 10000 in
/-- Counterexample for C1 as stated: a 24-byte file whose magic bytes start
with `0x5C` makes both entry points return a string that is not
syntactically valid JSON — the backslash of the lossily decoded magic is
interpolated unescaped into the error object (only double quotes are
replaced). -/
theorem claim_C1_counterexample :
    isValidJson (inspectPayloadBoundary decEmpty "/payload.bin" badMagicFile) = false ∧
    isValidJson (extractPayloadBoundary envEmpty "/payload.bin" "/out" badMagicFile true) =
      false := by
  constructor
  · decide
  · decide
